import Mathlib

/-!
Verification of the MCQ generation-and-grading core of `QCM.py`, a small
Streamlit quiz-generator application.

The Python source is shallowly embedded: strings manipulated by the
code-fence stripping pipeline are `List Char` (Python `str`), JSON values
produced by `json.loads` are the inductive `Json` below, the Gemini model
call and the JSON parser are external collaborators and enter the embedding
as explicit arguments, and the Streamlit session state is the record
`SessionState` acted on by a `step` function translated from the three
event handlers.  A Python exception that escapes an expression is modelled
by `Option`/`none` (for dict subscript `KeyError` in rendering) or by an
explicit failure constructor (for the `try/except` blocks of
`generate_qcm_with_gemini`).
-/

namespace QCM

/-- JSON values, the possible results of Python `json.loads`. -/
inductive Json where
  | null
  | bool (b : Bool)
  | num (n : Int)
  | str (s : String)
  | arr (elems : List Json)
  | obj (fields : List (String × Json))

/-- Python `str.strip()`: remove leading and trailing whitespace. -/
def pyStrip (s : List Char) : List Char :=
  ((s.dropWhile Char.isWhitespace).reverse.dropWhile Char.isWhitespace).reverse

/-- The characters of the markdown fence opener checked at line 68. -/
def fenceOpen : List Char := "```json".toList

/-- The characters of the markdown fence closer checked at line 70. -/
def fenceClose : List Char := "```".toList

/-- Lines 68-71 of `QCM.py`, the fence-removal phase on the
already-trimmed response: strip one leading ` ```json ` fence (if
present) and one trailing ` ``` ` fence (if present), re-stripping
whitespace after each removal. -/
def stripFencesTrimmed (s1 : List Char) : List Char :=
  let s2 := if List.isPrefixOf fenceOpen s1
            then pyStrip (s1.drop fenceOpen.length) else s1
  let s3 := if List.isSuffixOf fenceClose s2
            then pyStrip (s2.take (s2.length - fenceClose.length)) else s2
  s3

/-- Lines 67-71 of `QCM.py`: `response.text.strip()`, then the
fence-removal phase. -/
def stripFences (rawText : List Char) : List Char :=
  stripFencesTrimmed (pyStrip rawText)

/-- Python dict assignment `d[k] = v`: overwrite in place if the key is
present, otherwise append the new binding at the end. -/
def setField (fields : List (String × Json)) (k : String) (v : Json) :
    List (String × Json) :=
  if fields.any (fun p => p.1 == k)
  then fields.map (fun p => if p.1 == k then (k, v) else p)
  else fields ++ [(k, v)]

/-- Line 75 of `QCM.py`: `qcm_data["fragment_source"] = fragment`.
Item assignment succeeds only when `qcm_data` is a dict; on any other
JSON value Python raises `TypeError`, modelled as `none`. -/
def attachFragment (j : Json) (fragment : String) : Option Json :=
  match j with
  | .obj fields => some (.obj (setField fields "fragment_source" (.str fragment)))
  | _ => none

/-- The cause recorded by the generic `except Exception` branch
(line 80): either the model invocation raised, or the item assignment
at line 75 raised `TypeError`. -/
inductive GenFailureCause where
  | modelError (msg : List Char)
  | attachTypeError

/-- Outcome of `generate_qcm_with_gemini`.  `malformed` is the
`except json.JSONDecodeError` branch (lines 77-79): it surfaces an error
carrying the raw response body and the parse error and returns `None`.
`failure` is the generic `except Exception` branch (lines 80-82).  Both
error branches return `None` to the caller. -/
inductive GenResult where
  | ok (q : Json)
  | malformed (raw : List Char) (err : List Char)
  | failure (cause : GenFailureCause)

/-- The value the Python function returns: the parsed dict on success,
`None` on either exception branch. -/
def returnedQCM : GenResult → Option Json
  | .ok q => some q
  | .malformed _ _ => none
  | .failure _ => none

/-- Lines 59-82 of `QCM.py`, `generate_qcm_with_gemini`.  The Gemini call
and `json.loads` are external collaborators and are passed in explicitly:
`modelResponse` is the outcome of `gemini_model.generate_content(...)` (its
text on success, the exception message otherwise) and `parse` embeds
`json.loads` (parsed value, or the decode-error message). -/
def generate_from_text
    (parse : List Char → Except (List Char) Json)
    (rawText : List Char) (fragment : String) : GenResult :=
  match parse (stripFences rawText) with
  | .error e => .malformed rawText e
  | .ok j =>
    match attachFragment j fragment with
    | some q => .ok q
    | none => .failure .attachTypeError

/-- See the doc comment above `generate_from_text`; this wrapper adds the
outcome of the model invocation itself (a raised exception lands in the
generic `except Exception` branch). -/
def generate_qcm_with_gemini
    (parse : List Char → Except (List Char) Json)
    (modelResponse : Except (List Char) (List Char))
    (fragment : String) : GenResult :=
  match modelResponse with
  | .error e => .failure (.modelError e)
  | .ok rawText => generate_from_text parse rawText fragment

/-! ### Grading (correction display, lines 203-250, and submit, lines 197-200) -/

/-- Python `sorted(...)` on a list of strings (lexicographic order on
`String`); modelled by insertion sort, which produces the same sorted
permutation. -/
def pySorted (l : List String) : List String :=
  List.insertionSort (fun a b => a ≤ b) l

/-- The four per-option verdict categories of the correction display. -/
inductive Verdict where
  | correctChosen
  | correctMissed
  | incorrectChosen
  | incorrectAvoided
deriving DecidableEq

/-- Lines 223-250 of `QCM.py` for one option key: the `if/elif` chain over
`is_correct_option` and `user_selected_option`.  `status_text` is
initialised to the empty string, so a fall-through (no branch taken) is
modelled by `none`. -/
def verdictFor (correct_answers user_answers : List String) (k : String) :
    Option Verdict :=
  let is_correct_option := k ∈ correct_answers
  let user_selected_option := k ∈ user_answers
  if is_correct_option ∧ user_selected_option then some .correctChosen
  else if is_correct_option ∧ ¬ user_selected_option then some .correctMissed
  else if ¬ is_correct_option ∧ user_selected_option then some .incorrectChosen
  else if ¬ is_correct_option ∧ ¬ user_selected_option then some .incorrectAvoided
  else none

/-- Line 218: `sorted(qcm["options"].keys())`, the iteration order of the
correction loop. -/
def optionKeys (options : List (String × Json)) : List String :=
  pySorted (options.map Prod.fst)

/-- The whole correction loop of lines 206 and 218-250: for each option
key, in sorted order, the verdict computed against
`correct_answers = sorted(qcm["correct_answers"])` and the user
selection. -/
def gradeAll (options : List (String × Json))
    (correct_answers user_answers : List String) :
    List (String × Option Verdict) :=
  (optionKeys options).map
    (fun k => (k, verdictFor (pySorted correct_answers) user_answers k))

/-- Lines 198 and 212 of `QCM.py`: the submit handler stores
`sorted(user_choices)` and the correction compares it with
`sorted(qcm["correct_answers"])` for the overall verdict. -/
def is_fully_correct (user_choices correct_answers : List String) : Bool :=
  pySorted user_choices == pySorted correct_answers

/-! ### Session state and event handlers -/

/-- The four `st.session_state` fields initialised at lines 85-92. -/
structure SessionState where
  course_lines : List String
  current_qcm : Option Json
  show_correction : Bool
  user_selection : List String

/-- Messages surfaced to the user via `st.warning` / `st.error` /
`st.success`. -/
inductive Surfaced where
  | warning (msg : String)
  | error (msg : String)
  | success (msg : String)
deriving DecidableEq

/-- Python `str.splitlines()` restricted to `'\n'` boundaries (the only
line separator relevant here): no trailing empty line is produced for a
trailing newline, and `""` splits to `[]`. -/
def splitlines (s : List Char) : List (List Char) :=
  s.foldr
    (fun c acc =>
      if c = '\n' then [] :: acc
      else match acc with
        | [] => [[c]]
        | l :: ls => (c :: l) :: ls)
    []

/-- Lines 110-130 of `QCM.py`, the "Analyser le cours" button handler,
with `course_text` already resolved from the upload/paste widgets.
Note that the empty-input branch (lines 117-119) empties `course_lines`
and surfaces a warning but leaves `current_qcm` and `show_correction`
untouched; only the success branch (lines 128-130) clears them. -/
def loadCourse (st : SessionState) (course_text : String) :
    SessionState × List Surfaced :=
  if (pyStrip course_text.toList).isEmpty then
    ({ st with course_lines := [] },
     [.warning "Veuillez fournir du texte pour l\x27analyse."])
  else
    let all_lines := splitlines course_text.toList
    let kept := (all_lines.filter (fun l => !(pyStrip l).isEmpty)).map
      (fun l => String.mk l)
    if kept.isEmpty then
      ({ st with course_lines := kept },
       [.error "Aucune ligne de texte non-vide n\x27a été trouvée."])
    else
      ({ st with course_lines := kept, current_qcm := none,
                 show_correction := false },
       [.success (toString kept.length ++ " lignes de cours prêtes à être utilisées !")])

/-- The window size, line 155: `chunk_size = 100`. -/
def chunk_size : Nat := 100

/-- Line 161-165: the start index is `0` when the pool fits in one window,
otherwise `random.randint(0, num_lines - chunk_size)`; the random draw is
an external source and enters as `startChoice`. -/
def start_index (num_lines startChoice : Nat) : Nat :=
  if num_lines ≤ chunk_size then 0 else startChoice

/-- Line 167: `lines[start_index : start_index + chunk_size]`. -/
def selected_lines (lines : List String) (start : Nat) : List String :=
  (lines.drop start).take chunk_size

/-- Line 168: `"\n".join(selected_lines)`. -/
def selected_fragment (lines : List String) (start : Nat) : String :=
  String.intercalate "\n" (selected_lines lines start)

/-- The external nondeterminism consumed by one run of the
"Générer un nouveau QCM" handler: the random start draw, the JSON parser,
and the model response. -/
structure GenEnv where
  startChoice : Nat
  parse : List Char → Except (List Char) Json
  modelResponse : Except (List Char) (List Char)

/-- Lines 149-172 of `QCM.py`, the "Générer un nouveau QCM" button
handler: reset `show_correction` and `user_selection` first, then select a
fragment and store the generation result (the parsed dict, or `None`) in
`current_qcm`. -/
def requestNewQuestion (st : SessionState) (env : GenEnv) :
    SessionState × List Surfaced :=
  let st1 := { st with show_correction := false, user_selection := [] }
  let num_lines := st.course_lines.length
  if num_lines = 0 then
    ({ st1 with current_qcm := none },
     [.warning "Aucune ligne de cours à utiliser. Veuillez analyser un cours d\x27abord."])
  else
    let start := start_index num_lines env.startChoice
    let fragment := selected_fragment st.course_lines start
    let qcm := returnedQCM
      (generate_qcm_with_gemini env.parse env.modelResponse fragment)
    ({ st1 with current_qcm := qcm }, [])

/-- Lines 197-200 of `QCM.py`, the form submit handler.  The form (and
hence the submit button) is only rendered under
`if st.session_state.current_qcm:` (line 178), so the submit action can
only fire when a question is present. -/
def submitAnswer (st : SessionState) (user_choices : List String) :
    SessionState × List Surfaced :=
  if st.current_qcm.isSome then
    ({ st with user_selection := pySorted user_choices,
               show_correction := true }, [])
  else (st, [])

/-- The three user actions driving the session state. -/
inductive Action where
  | loadCourse (text : String)
  | requestNewQuestion (env : GenEnv)
  | submitAnswer (choices : List String)

/-- One step of the session-state machine. -/
def step (st : SessionState) (a : Action) : SessionState × List Surfaced :=
  match a with
  | .loadCourse t => loadCourse st t
  | .requestNewQuestion env => requestNewQuestion st env
  | .submitAnswer c => submitAnswer st c

/-! ### Rendering (lines 178-200 and 218-220) -/

/-- Python `d.get(k)` / `d[k]` lookup on a parsed JSON object (dict keys
are unique after `json.loads`; `find?` returns the first binding). -/
def dictGet (fields : List (String × Json)) (k : String) : Option Json :=
  Option.map Prod.snd (fields.find? (fun p => p.1 == k))

/-- Line 220 of `QCM.py`: the per-key explanation lookup
`qcm["explanations"].get(key, ...)` with its French placeholder
default. -/
def explanationFor (explanations : List (String × Json)) (k : String) : Json :=
  (dictGet explanations k).getD (.str "Pas d\x27explication fournie.")

/-- Lines 178-195 of `QCM.py`, the question-rendering pass: direct dict
subscripts `qcm["fragment_source"]` (line 183), `qcm["question"]`
(line 185) and `qcm["options"]` (line 189), plus `.keys()` which requires
`options` to be a dict.  A missing key raises `KeyError` (and a non-dict
`options` raises `AttributeError`); an escaped exception is modelled by
`none`.  On success, the fragment, the question and the option rows in
sorted key order are displayed. -/
def renderFields (fields : List (String × Json)) :
    Option (Json × Json × List (String × Json)) :=
  match dictGet fields "fragment_source", dictGet fields "question",
        dictGet fields "options" with
  | some frag, some q, some (.obj optFields) =>
    some (frag, q,
      (optionKeys optFields).filterMap
        (fun k => Option.map (fun v => (k, v)) (dictGet optFields k)))
  | _, _, _ => none

/-- See the doc comment above `renderFields`: the question-rendering pass
over the whole `current_qcm` value (which is a dict after a successful
`json.loads`, but nothing enforces that). -/
def renderQCM (qcm : Json) : Option (Json × Json × List (String × Json)) :=
  match qcm with
  | .obj fields => renderFields fields
  | _ => none

/-! ### Concrete instantiations of the external collaborators, used to
exercise the theorems below on closed inputs. -/

/-- A parser instantiation that rejects every input (every input is
invalid JSON). -/
def parseAlwaysFail : List Char → Except (List Char) Json :=
  fun s => .error s

/-- A parser instantiation that accepts every input as the empty JSON
object. -/
def parseConstObj : List Char → Except (List Char) Json :=
  fun _ => .ok (.obj [])

/-- A parser instantiation that accepts every input as an empty JSON
array (a non-object top-level value). -/
def parseConstArr : List Char → Except (List Char) Json :=
  fun _ => .ok (.arr [])

/-- A session state holding a current question, used to exercise the
state-transition theorems on closed inputs. -/
def sampleState : SessionState :=
  { course_lines := ["ligne"], current_qcm := some (.obj []),
    show_correction := false, user_selection := [] }

/-! ### Helper lemmas -/

theorem mem_pySorted {a : String} {l : List String} :
    a ∈ pySorted l ↔ a ∈ l :=
  (List.perm_insertionSort _ l).mem_iff

theorem pySorted_eq_iff {l₁ l₂ : List String} :
    pySorted l₁ = pySorted l₂ ↔ l₁.Perm l₂ := by
  constructor
  · intro h
    have p1 : l₁.Perm (pySorted l₁) :=
      (List.perm_insertionSort (fun a b : String => a ≤ b) l₁).symm
    rw [h] at p1
    exact p1.trans (List.perm_insertionSort _ l₂)
  · intro h
    exact List.eq_of_perm_of_sorted
      ((List.perm_insertionSort _ l₁).trans
        (h.trans (List.perm_insertionSort _ l₂).symm))
      (List.sorted_insertionSort _ l₁) (List.sorted_insertionSort _ l₂)

/-- The `if/elif` chain of lines 231-250 never falls through: each option
key receives the verdict given by the truth table on
(`is_correct_option`, `user_selected_option`). -/
theorem verdictFor_eq (c s : List String) (k : String) :
    verdictFor c s k =
      some (if k ∈ c then (if k ∈ s then .correctChosen else .correctMissed)
            else (if k ∈ s then .incorrectChosen else .incorrectAvoided)) := by
  unfold verdictFor
  by_cases h1 : k ∈ c <;> by_cases h2 : k ∈ s <;> simp [h1, h2]

theorem mem_gradeAll {options : List (String × Json)}
    {correct sel : List String} {k : String} {ov : Option Verdict} :
    (k, ov) ∈ gradeAll options correct sel ↔
      k ∈ options.map Prod.fst ∧ verdictFor (pySorted correct) sel k = ov := by
  unfold gradeAll optionKeys
  constructor
  · intro h
    rcases List.mem_map.1 h with ⟨k', hk', hEq⟩
    rcases Prod.mk.injEq .. ▸ hEq with ⟨rfl, rfl⟩
    exact ⟨mem_pySorted.1 hk', rfl⟩
  · rintro ⟨hk, rfl⟩
    exact List.mem_map.2 ⟨k, mem_pySorted.2 hk, rfl⟩

/-- Claim C1: for every MCQ and every selection, the correction loop assigns
each option key exactly one of the four verdicts according to the truth
table on (correct, selected); consequently (for an MCQ whose
`correct_answers` are among its option keys) the keys graded
`CorrectChosen` or `CorrectMissed` are exactly the `correct_answers` keys,
and the keys graded `IncorrectChosen` or `IncorrectAvoided` are exactly
the remaining option keys. -/
theorem c1_grading_partition (options : List (String × Json))
    (correct sel : List String)
    (hsub : ∀ k, k ∈ correct → k ∈ options.map Prod.fst) :
    (∀ k ∈ optionKeys options,
        verdictFor (pySorted correct) sel k =
          some (if k ∈ correct then
                  (if k ∈ sel then .correctChosen else .correctMissed)
                else
                  (if k ∈ sel then .incorrectChosen else .incorrectAvoided)))
    ∧ (∀ k, ((k, some Verdict.correctChosen) ∈ gradeAll options correct sel
           ∨ (k, some Verdict.correctMissed) ∈ gradeAll options correct sel)
          ↔ k ∈ correct)
    ∧ (∀ k, ((k, some Verdict.incorrectChosen) ∈ gradeAll options correct sel
           ∨ (k, some Verdict.incorrectAvoided) ∈ gradeAll options correct sel)
          ↔ (k ∈ options.map Prod.fst ∧ k ∉ correct)) := by
  refine ⟨?_, ?_, ?_⟩
  · intro k _
    rw [verdictFor_eq]
    simp [mem_pySorted]
  · intro k
    by_cases hc : k ∈ correct
    · have hm := hsub k hc
      by_cases hs : k ∈ sel <;>
        simp [mem_gradeAll, verdictFor_eq, mem_pySorted, hc, hs, hm]
    · by_cases hs : k ∈ sel <;>
        simp [mem_gradeAll, verdictFor_eq, mem_pySorted, hc, hs]
  · intro k
    by_cases hc : k ∈ correct
    · have hm := hsub k hc
      by_cases hs : k ∈ sel <;>
        simp [mem_gradeAll, verdictFor_eq, mem_pySorted, hc, hs, hm]
    · by_cases hs : k ∈ sel <;>
        simp [mem_gradeAll, verdictFor_eq, mem_pySorted, hc, hs]

/-- Exercises `c1_grading_partition` on a concrete two-option MCQ. -/
theorem c1_grading_partition_witness :
    (∀ k, k ∈ (["A"] : List String) →
        k ∈ ([("A", Json.str "a"), ("B", Json.str "b")].map Prod.fst))
    ∧ (∀ k, ((k, some Verdict.correctChosen)
            ∈ gradeAll [("A", Json.str "a"), ("B", Json.str "b")] ["A"] ["B"]
           ∨ (k, some Verdict.correctMissed)
            ∈ gradeAll [("A", Json.str "a"), ("B", Json.str "b")] ["A"] ["B"])
          ↔ k ∈ (["A"] : List String)) := by
  have hsub : ∀ k, k ∈ (["A"] : List String) →
      k ∈ ([("A", Json.str "a"), ("B", Json.str "b")].map Prod.fst) := by
    intro k hk
    rw [List.mem_singleton] at hk
    subst hk
    simp
  exact ⟨hsub, (c1_grading_partition _ ["A"] ["B"] hsub).2.1⟩

/-- Claim C2: the overall verdict is an exact, order-independent set match
between the selection and `correct_answers`; a strict subset or strict
superset of the correct keys is graded false — partial credit is never
awarded.  (`user_choices` comes from distinct checkboxes and
`correct_answers` is a set of keys, so both lists are duplicate-free.) -/
theorem c2_exact_match (user_choices correct_answers : List String)
    (h1 : user_choices.Nodup) (h2 : correct_answers.Nodup) :
    (is_fully_correct user_choices correct_answers = true ↔
      ∀ k, k ∈ user_choices ↔ k ∈ correct_answers)
    ∧ ((∀ k ∈ user_choices, k ∈ correct_answers) →
        (∃ k, k ∈ correct_answers ∧ k ∉ user_choices) →
        is_fully_correct user_choices correct_answers = false)
    ∧ ((∀ k ∈ correct_answers, k ∈ user_choices) →
        (∃ k, k ∈ user_choices ∧ k ∉ correct_answers) →
        is_fully_correct user_choices correct_answers = false) := by
  have main : is_fully_correct user_choices correct_answers = true ↔
      ∀ k, k ∈ user_choices ↔ k ∈ correct_answers := by
    simp only [is_fully_correct, beq_iff_eq]
    rw [pySorted_eq_iff]
    exact List.perm_ext_iff_of_nodup h1 h2
  refine ⟨main, ?_, ?_⟩
  · rintro _ ⟨k, hk, hnk⟩
    cases hb : is_fully_correct user_choices correct_answers with
    | false => rfl
    | true => exact absurd ((main.1 hb k).2 hk) hnk
  · rintro _ ⟨k, hk, hnk⟩
    cases hb : is_fully_correct user_choices correct_answers with
    | false => rfl
    | true => exact absurd ((main.1 hb k).1 hk) hnk

/-- Exercises `c2_exact_match` on concrete order-swapped selections. -/
theorem c2_exact_match_witness :
    is_fully_correct ["A", "C"] ["C", "A"] = true ↔
      ∀ k, k ∈ (["A", "C"] : List String) ↔ k ∈ (["C", "A"] : List String) :=
  (c2_exact_match ["A", "C"] ["C", "A"] (by decide) (by decide)).1

/-- Claim C9: grading is total — it produces one entry per option, each
entry carries one of the four verdicts (never a fall-through), verdicts
are computed only for keys present in `options`, and phantom selection
keys (absent from `options`) receive no verdict. -/
theorem c9_grading_total (options : List (String × Json))
    (correct sel : List String) :
    (gradeAll options correct sel).length = options.length
    ∧ (∀ p ∈ gradeAll options correct sel,
        p.1 ∈ options.map Prod.fst ∧ ∃ v, p.2 = some v)
    ∧ (∀ k, k ∉ options.map Prod.fst →
        ∀ ov, (k, ov) ∉ gradeAll options correct sel) := by
  refine ⟨?_, ?_, ?_⟩
  · unfold gradeAll optionKeys pySorted
    rw [List.length_map, (List.perm_insertionSort _ _).length_eq,
      List.length_map]
  · rintro ⟨k, ov⟩ hp
    rcases mem_gradeAll.1 hp with ⟨hk, hv⟩
    refine ⟨hk, ?_⟩
    rw [← hv, verdictFor_eq]
    exact ⟨_, rfl⟩
  · intro k hk ov hmem
    exact hk (mem_gradeAll.1 hmem).1

/-- Exercises `c9_grading_total` on a one-option MCQ with a phantom
selection key. -/
theorem c9_grading_total_witness :
    (gradeAll [("A", Json.str "a")] ["A"] ["Z"]).length
      = ([("A", Json.str "a")] : List (String × Json)).length :=
  (c9_grading_total [("A", Json.str "a")] ["A"] ["Z"]).1

theorem take_drop_contiguous (l : List α) (s n : Nat) :
    (l.drop s).take n <:+: l := by
  refine ⟨l.take s, (l.drop s).drop n, ?_⟩
  rw [List.append_assoc, List.take_append_drop, List.take_append_drop]

/-- Claim C3: for every line pool of length `L` and every admissible random
draw, the fragment handed to question generation is exactly
`min(L, 100)` lines forming a contiguous sub-sequence of the pool,
joined with newline separators; when `L ≤ 100` the start index is `0` and
the whole pool is used, otherwise the start index is the draw from
`[0, L - 100]`. -/
theorem c3_fragment_window (lines : List String) (startChoice : Nat)
    (h : chunk_size < lines.length → startChoice ≤ lines.length - chunk_size) :
    (selected_lines lines (start_index lines.length startChoice)).length
        = min lines.length chunk_size
    ∧ selected_lines lines (start_index lines.length startChoice) <:+: lines
    ∧ (lines.length ≤ chunk_size →
        start_index lines.length startChoice = 0
        ∧ selected_lines lines (start_index lines.length startChoice) = lines)
    ∧ (chunk_size < lines.length →
        start_index lines.length startChoice = startChoice)
    ∧ selected_fragment lines (start_index lines.length startChoice)
        = String.intercalate "\n"
            (selected_lines lines (start_index lines.length startChoice)) := by
  refine ⟨?_, take_drop_contiguous _ _ _, ?_, ?_, rfl⟩
  · unfold selected_lines start_index
    rw [List.length_take, List.length_drop]
    by_cases hle : lines.length ≤ chunk_size
    · rw [if_pos hle]
      omega
    · rw [if_neg hle]
      have := h (by omega)
      omega
  · intro hle
    unfold start_index selected_lines
    rw [if_pos hle]
    exact ⟨rfl, by rw [List.drop_zero]; exact List.take_of_length_le hle⟩
  · intro hlt
    unfold start_index
    rw [if_neg (by omega)]

/-- Exercises `c3_fragment_window` on a concrete two-line pool. -/
theorem c3_fragment_window_witness :
    (selected_lines ["a", "b"] (start_index 2 0)).length = min 2 chunk_size
    ∧ selected_lines ["a", "b"] (start_index 2 0) <:+: ["a", "b"] := by
  have res := c3_fragment_window ["a", "b"] 0 (by intro hlt; omega)
  exact ⟨res.1, res.2.1⟩

/-- Claim C8: triggering a new MCQ generation resets `user_selection` to
empty and `show_correction` to false, and `show_correction` can only
switch from false to true through a submit action taken while a current
MCQ is present. -/
theorem c8_reset_on_new_question :
    (∀ st env, (step st (.requestNewQuestion env)).1.user_selection = []
      ∧ (step st (.requestNewQuestion env)).1.show_correction = false)
    ∧ (∀ st a, st.show_correction = false →
        (step st a).1.show_correction = true →
        ∃ sel, a = .submitAnswer sel ∧ st.current_qcm.isSome = true) := by
  constructor
  · intro st env
    unfold step requestNewQuestion
    by_cases h0 : st.course_lines.length = 0 <;> simp [h0]
  · intro st a h0 h1
    cases a with
    | loadCourse t =>
      simp only [step, loadCourse] at h1
      split at h1
      · simp [h0] at h1
      · split at h1
        · simp [h0] at h1
        · simp at h1
    | requestNewQuestion env =>
      simp only [step, requestNewQuestion] at h1
      split at h1 <;> simp at h1
    | submitAnswer c =>
      simp only [step, submitAnswer] at h1
      by_cases hq : st.current_qcm.isSome
      · exact ⟨c, rfl, hq⟩
      · rw [if_neg hq] at h1
        simp [h0] at h1

/-- Exercises `c8_reset_on_new_question` on a concrete state and submit
action. -/
theorem c8_reset_on_new_question_witness :
    ∃ sel, Action.submitAnswer ["A"] = .submitAnswer sel
      ∧ sampleState.current_qcm.isSome = true :=
  c8_reset_on_new_question.2 sampleState (.submitAnswer ["A"]) rfl (by rfl)

/-- Claim C6 counterexample: loading empty course text empties
`course_lines` and surfaces the warning, but — contrary to the claim —
does *not* clear `current_qcm`: starting from a state holding a question,
the question is still present afterwards (`isSome = true`).  The code
empty-input branch (lines 117-119) only writes `course_lines`; the
clearing happens solely in the success branch (lines 129-130). -/
theorem c6_counterexample :
    (step sampleState (.loadCourse "")).1.course_lines = []
    ∧ Surfaced.warning "Veuillez fournir du texte pour l\x27analyse."
        ∈ (step sampleState (.loadCourse "")).2
    ∧ (step sampleState (.loadCourse "")).1.current_qcm.isSome = true := by
  refine ⟨rfl, ?_, rfl⟩
  simp [step, loadCourse, pyStrip]

/-- Claim C6 amended: loading text that is empty after trimming empties
`course_lines` and surfaces a user-visible warning, but leaves
`current_qcm` (and `show_correction`) unchanged rather than clearing
them. -/
theorem c6_amended_empty_load (st : SessionState) (text : String)
    (h : pyStrip text.data = []) :
    (step st (.loadCourse text)).1.course_lines = []
    ∧ Surfaced.warning "Veuillez fournir du texte pour l\x27analyse."
        ∈ (step st (.loadCourse text)).2
    ∧ (step st (.loadCourse text)).1.current_qcm = st.current_qcm
    ∧ (step st (.loadCourse text)).1.show_correction = st.show_correction := by
  simp [step, loadCourse, h]

/-- Exercises `c6_amended_empty_load` on a whitespace-only input. -/
theorem c6_amended_empty_load_witness :
    (step sampleState (.loadCourse " \n ")).1.course_lines = []
    ∧ Surfaced.warning "Veuillez fournir du texte pour l\x27analyse."
        ∈ (step sampleState (.loadCourse " \n ")).2
    ∧ (step sampleState (.loadCourse " \n ")).1.current_qcm
        = sampleState.current_qcm
    ∧ (step sampleState (.loadCourse " \n ")).1.show_correction
        = sampleState.show_correction :=
  c6_amended_empty_load sampleState " \n " (by rfl)

/-- Claim C7 counterexample: the question-rendering pass does *not* handle
all missing schema fields defensively: on an MCQ object that lacks the
`question` key, the direct subscript `qcm["question"]` (line 185) raises
`KeyError` — modelled here by `renderQCM` returning `none` — instead of
rendering. -/
theorem c7_counterexample :
    renderQCM (Json.obj [("fragment_source", Json.str "f"),
      ("options", Json.obj [])]) = none := by
  rfl

/-- Claim C7 amended: a missing per-key explanation is substituted with the
placeholder string rather than failing, but rendering an MCQ missing the
`question` field crashes (`KeyError`, modelled by `none`) rather than
being handled defensively. -/
theorem c7_amended_defensive :
    (∀ (explanations : List (String × Json)) (k : String),
        dictGet explanations k = none →
        explanationFor explanations k = .str "Pas d\x27explication fournie.")
    ∧ (∀ fields, dictGet fields "question" = none →
        renderQCM (.obj fields) = none) := by
  constructor
  · intro ex k h
    unfold explanationFor
    rw [h]
    rfl
  · intro fields h
    show renderFields fields = none
    unfold renderFields
    rw [h]
    cases hf : dictGet fields "fragment_source" <;>
      cases ho : dictGet fields "options" <;> rfl

/-- Exercises `c7_amended_defensive` on an empty explanations mapping and
an MCQ object with no fields at all. -/
theorem c7_amended_defensive_witness :
    explanationFor [] "A" = .str "Pas d\x27explication fournie."
    ∧ renderQCM (.obj []) = none :=
  ⟨c7_amended_defensive.1 [] "A" rfl, c7_amended_defensive.2 [] rfl⟩

theorem dropWhile_append_self {p : Char → Bool} {b r : List Char}
    (hne : b ≠ []) (hb : b.dropWhile p = b) :
    (b ++ r).dropWhile p = b ++ r := by
  cases b with
  | nil => exact absurd rfl hne
  | cons c t =>
    have hc : ¬ p c = true := by
      have := (List.dropWhile_eq_self_iff.1 hb) (by simp)
      simpa using this
    simp [List.cons_append, List.dropWhile_cons, hc]

theorem pyStrip_eq_self {l : List Char}
    (h1 : l.dropWhile Char.isWhitespace = l)
    (h2 : l.reverse.dropWhile Char.isWhitespace = l.reverse) :
    pyStrip l = l := by
  unfold pyStrip
  rw [h1, h2, List.reverse_reverse]

/-- Stripping behaviour of lines 68-71 on a trimmed response wrapped
exactly once in a ` ```json `-opener line and a ` ``` `-closer line:
exactly that one wrapper pair is removed, recovering the
(already-trimmed, non-empty) inner body `b`. -/
theorem stripFencesTrimmed_wrapped (b : List Char) (hne : b ≠ [])
    (h1 : b.dropWhile Char.isWhitespace = b)
    (h2 : b.reverse.dropWhile Char.isWhitespace = b.reverse) :
    stripFencesTrimmed (fenceOpen ++ '\n' :: (b ++ '\n' :: fenceClose))
      = b := by
  have assoc : b ++ '\n' :: fenceClose = (b ++ ['\n']) ++ fenceClose := by
    simp
  have e2 : List.isPrefixOf fenceOpen
      (fenceOpen ++ '\n' :: (b ++ '\n' :: fenceClose)) = true := by
    simp
  have e3 : (fenceOpen ++ '\n' :: (b ++ '\n' :: fenceClose)).drop
      fenceOpen.length = '\n' :: (b ++ '\n' :: fenceClose) :=
    List.drop_left _ _
  have e4 : pyStrip ('\n' :: (b ++ '\n' :: fenceClose))
      = b ++ '\n' :: fenceClose := by
    unfold pyStrip
    rw [List.dropWhile_cons_of_pos (by decide),
      dropWhile_append_self hne h1]
    have hrev : (b ++ '\n' :: fenceClose).reverse
        = fenceClose.reverse ++ ('\n' :: b.reverse) := by
      simp
    rw [hrev, dropWhile_append_self (by decide) (by decide), ← hrev,
      List.reverse_reverse]
  have e5 : List.isSuffixOf fenceClose (b ++ '\n' :: fenceClose) = true := by
    simp only [ List.isSuffixOf_iff_suffix]
    exact ⟨b ++ ['\n'], by simp⟩
  have e6 : (b ++ '\n' :: fenceClose).take
      ((b ++ '\n' :: fenceClose).length - fenceClose.length)
      = b ++ ['\n'] := by
    rw [assoc, List.length_append, Nat.add_sub_cancel]
    exact List.take_left _ _
  have e7 : pyStrip (b ++ ['\n']) = b := by
    unfold pyStrip
    rw [dropWhile_append_self hne h1]
    have hrev : (b ++ ['\n']).reverse = '\n' :: b.reverse := by simp
    rw [hrev, List.dropWhile_cons_of_pos (by decide), h2,
      List.reverse_reverse]
  simp only [stripFencesTrimmed, e2, if_true, e3, e4, e5, e6, e7]

/-- Claim C4: whenever the post-processed response text is not valid JSON
(the parser rejects it), generation takes the `MalformedResponseError`
branch — carrying the raw response body and the parse error — and returns
no MCQ.  The branch surfaces the error synchronously (`st.error`) and
performs no retry: the function returns immediately. -/
theorem c4_malformed_response
    (parse : List Char → Except (List Char) Json)
    (raw : List Char) (fragment : String) (e : List Char)
    (h : parse (stripFences raw) = .error e) :
    generate_qcm_with_gemini parse (.ok raw) fragment = .malformed raw e
    ∧ returnedQCM (generate_qcm_with_gemini parse (.ok raw) fragment)
        = none := by
  show generate_from_text parse raw fragment = .malformed raw e
    ∧ returnedQCM (generate_from_text parse raw fragment) = none
  unfold generate_from_text
  rw [h]
  exact ⟨rfl, rfl⟩

/-- Exercises `c4_malformed_response` with a rejecting parser on a
concrete non-JSON response. -/
theorem c4_malformed_response_witness :
    generate_qcm_with_gemini parseAlwaysFail (.ok "pas du json".toList) "frag"
      = .malformed "pas du json".toList (stripFences "pas du json".toList)
    ∧ returnedQCM (generate_qcm_with_gemini parseAlwaysFail
        (.ok "pas du json".toList) "frag") = none :=
  c4_malformed_response parseAlwaysFail "pas du json".toList "frag"
    (stripFences "pas du json".toList) rfl

/-- Claim C5: a response wrapped exactly once in a leading ` ```json `
fence and a trailing ` ``` ` fence around a valid JSON object body has
exactly that one wrapper pair stripped before parsing, and the inner JSON
parses into the returned MCQ (with `fragment_source` attached). -/
theorem c5_fence_stripping
    (parse : List Char → Except (List Char) Json)
    (fragment : String) (raw b : List Char)
    (fields : List (String × Json))
    (hraw : pyStrip raw = fenceOpen ++ '\n' :: (b ++ '\n' :: fenceClose))
    (hne : b ≠ []) (h1 : b.dropWhile Char.isWhitespace = b)
    (h2 : b.reverse.dropWhile Char.isWhitespace = b.reverse)
    (hp : parse b = .ok (.obj fields)) :
    stripFences raw = b
    ∧ generate_qcm_with_gemini parse (.ok raw) fragment
      = .ok (.obj (setField fields "fragment_source" (.str fragment))) := by
  have hs : stripFences raw = b := by
    unfold stripFences
    rw [hraw]
    exact stripFencesTrimmed_wrapped b hne h1 h2
  refine ⟨hs, ?_⟩
  show generate_from_text parse raw fragment = _
  unfold generate_from_text
  rw [hs, hp]
  rfl

/-- Exercises `c5_fence_stripping` on a concrete fenced response with
surrounding whitespace. -/
theorem c5_fence_stripping_witness :
    stripFences ('\n' :: (fenceOpen ++ '\n' :: ("x".toList ++ '\n' ::
        fenceClose)) ++ [' ']) = "x".toList
    ∧ generate_qcm_with_gemini parseConstObj
        (.ok ('\n' :: (fenceOpen ++ '\n' :: ("x".toList ++ '\n' ::
          fenceClose)) ++ [' '])) "frag"
      = .ok (.obj (setField [] "fragment_source" (.str "frag"))) :=
  c5_fence_stripping parseConstObj "frag"
    ('\n' :: (fenceOpen ++ '\n' :: ("x".toList ++ '\n' :: fenceClose))
      ++ [' '])
    "x".toList [] (by decide) (by decide) (by decide) (by decide) rfl

/-- Claim C10: when the response parses as valid JSON whose top-level value
is not an object, generation does not take the `MalformedResponseError`
branch: attaching `fragment_source` raises `TypeError`, which is caught
by the generic exception branch, and no MCQ is returned. -/
theorem c10_non_object_toplevel
    (parse : List Char → Except (List Char) Json)
    (raw : List Char) (fragment : String) (j : Json)
    (hj : parse (stripFences raw) = .ok j)
    (hnotobj : ∀ fields, j ≠ .obj fields) :
    generate_qcm_with_gemini parse (.ok raw) fragment
        = .failure .attachTypeError
    ∧ returnedQCM (generate_qcm_with_gemini parse (.ok raw) fragment) = none
    ∧ ∀ r e, generate_qcm_with_gemini parse (.ok raw) fragment
        ≠ .malformed r e := by
  show generate_from_text parse raw fragment = .failure .attachTypeError
    ∧ returnedQCM (generate_from_text parse raw fragment) = none
    ∧ ∀ r e, generate_from_text parse raw fragment ≠ .malformed r e
  unfold generate_from_text
  rw [hj]
  cases j with
  | obj fields => exact absurd rfl (hnotobj fields)
  | null => exact ⟨rfl, rfl, fun r e h => nomatch h⟩
  | bool v => exact ⟨rfl, rfl, fun r e h => nomatch h⟩
  | num n => exact ⟨rfl, rfl, fun r e h => nomatch h⟩
  | str s => exact ⟨rfl, rfl, fun r e h => nomatch h⟩
  | arr l => exact ⟨rfl, rfl, fun r e h => nomatch h⟩

/-- Exercises `c10_non_object_toplevel` with a parser returning a bare
JSON array. -/
theorem c10_non_object_toplevel_witness :
    generate_qcm_with_gemini parseConstArr (.ok "[1]".toList) "frag"
        = .failure .attachTypeError
    ∧ returnedQCM (generate_qcm_with_gemini parseConstArr
        (.ok "[1]".toList) "frag") = none
    ∧ ∀ r e, generate_qcm_with_gemini parseConstArr (.ok "[1]".toList) "frag"
        ≠ .malformed r e :=
  c10_non_object_toplevel parseConstArr "[1]".toList "frag" (.arr [])
    rfl (fun _ h => nomatch h)

end QCM
